import Mathlib

/-!
Verification of the Dresden appointment-checker bot
(`src/check_appointments_once.py`, class `DresdnAppointmentChecker`).

The development shallowly embeds the program:
* HTML pages handled by BeautifulSoup become a tree type `HtmlNode`, with
  the `find` / `find_parent` / `find_all` traversals the code performs;
* each fallible network call is an `Except Fault _` value supplied by a
  `World` record (the oracle for what the site answers), so a caught
  exception is an `Except.error` handled by the embedded `try`/`except`;
* Python `dict` field harvesting becomes an association list with
  insert-or-overwrite semantics (`dictInsert`);
* the notification state machine of `run_once` / `run_continuously`
  becomes explicit state passing over `Option Bool` (Python `None`,
  `True`, `False`).
-/

set_option autoImplicit false

/-- Model of a parsed HTML document node (what BeautifulSoup exposes):
an element with a tag, attributes and children, or a text node. -/
inductive HtmlNode where
  | text (s : String)
  | elem (tag : String) (attrs : List (String × String)) (children : List HtmlNode)

/-- `n` is an element whose tag equals `t` (text nodes match no tag). -/
def HtmlNode.tagIs (n : HtmlNode) (t : String) : Bool :=
  match n with
  | .text _ => false
  | .elem tg _ _ => tg == t

/-- Python `tag.get(key)`: the attribute value, or `None` when absent. -/
def HtmlNode.attr (n : HtmlNode) (key : String) : Option String :=
  match n with
  | .text _ => none
  | .elem _ attrs _ => (attrs.find? (fun p => p.1 == key)).map Prod.snd

/-- Python `tag.get(key, d)`: the attribute value, with default `d`. -/
def HtmlNode.attrD (n : HtmlNode) (key d : String) : String :=
  (n.attr key).getD d

mutual
/-- BeautifulSoup `soup.find(pred)` in document (pre-)order, returning the
matched node together with its ancestor chain, innermost ancestor first
(this is the information `find_parent` consumes). `anc` accumulates the
ancestors of the node currently visited. -/
def findPathAux (p : HtmlNode → Bool) (anc : List HtmlNode) :
    HtmlNode → Option (HtmlNode × List HtmlNode)
  | .text s => if p (.text s) then some (.text s, anc) else none
  | .elem tg attrs cs =>
    if p (.elem tg attrs cs) then some (.elem tg attrs cs, anc)
    else findPathListAux p (HtmlNode.elem tg attrs cs :: anc) cs
termination_by structural n => n

/-- `findPathAux` over a list of siblings, left to right. -/
def findPathListAux (p : HtmlNode → Bool) (anc : List HtmlNode) :
    List HtmlNode → Option (HtmlNode × List HtmlNode)
  | [] => none
  | c :: cs =>
    match findPathAux p anc c with
    | some r => some r
    | none => findPathListAux p anc cs
termination_by structural l => l
end

mutual
/-- BeautifulSoup `tag.find_all(pred)`: all matching nodes of the subtree
in document (pre-)order. -/
def findAllAux (p : HtmlNode → Bool) : HtmlNode → List HtmlNode
  | .text s => if p (.text s) then [.text s] else []
  | .elem tg attrs cs =>
    (if p (.elem tg attrs cs) then [.elem tg attrs cs] else []) ++ findAllListAux p cs
termination_by structural n => n

/-- `findAllAux` over a list of siblings, left to right. -/
def findAllListAux (p : HtmlNode → Bool) : List HtmlNode → List HtmlNode
  | [] => []
  | c :: cs => findAllAux p c ++ findAllListAux p cs
termination_by structural l => l
end

/-- `pat` occurs as a contiguous sublist of `l`. -/
def listContains (pat : List Char) : List Char → Bool
  | [] => pat.isEmpty
  | c :: cs => pat.isPrefixOf (c :: cs) || listContains pat cs

/-- Python `sub in s` on strings: substring containment. -/
def pyContains (sub s : String) : Bool :=
  listContains sub.toList s.toList

/-- Python `s.lower()` (sufficient for the ASCII indicator substrings
the program searches for). -/
def pyLower (s : String) : String :=
  String.mk (s.toList.map Char.toLower)

/-- Python `s.startswith(pre)`. -/
def pyStartsWith (s pre : String) : Bool :=
  pre.toList.isPrefixOf s.toList

/-- Python `d[k] = v` on a `dict` modelled as an association list: an
existing key keeps its position and gets the new value, a new key is
appended at the end (Python 3.7+ insertion order). -/
def dictInsert : List (String × String) → String → String → List (String × String)
  | [], k, v => [(k, v)]
  | (k', v') :: rest, k, v =>
    if k' == k then (k', v) :: rest else (k', v') :: dictInsert rest k v

/-- Python `d.lookup` used in specifications: the value stored under `k`.
(`List.lookup` with String `==`, which is plain equality.) -/
def dictGet (d : List (String × String)) (k : String) : Option String :=
  match d with
  | [] => none
  | (k', v') :: rest => if k' == k then some v' else dictGet rest k

/-! ## The navigator (`DresdnAppointmentChecker.check_appointments`) -/

/-- `self.base_url` set in `__init__`. -/
def base_url : String := "https://termine-buergerbuero.dresden.de"

/-- The fixed German fully-booked sentence of line 108. -/
def no_appointments_text : String :=
  "Derzeit sind alle verfügbaren Termine ausgebucht. Bitte versuchen Sie es zu einem späteren Zeitpunkt"

/-- Exceptions a navigation step can raise: `Fault.network` covers
`requests.exceptions.RequestException` (connection errors, timeouts and
the `HTTPError` that `raise_for_status` raises), `Fault.other` any other
exception; the payload models `str(e)`. -/
inductive Fault where
  | network (msg : String)
  | other (msg : String)

/-- The message the two `except` clauses of `check_appointments` build
from a caught exception (lines 116-119). -/
def Fault.caughtMessage : Fault → String
  | .network m => "⚠️ Network error: " ++ m
  | .other m => "⚠️ Error during navigation: " ++ m

/-- Response to the GET of `start_url`; only its Set-Cookie header is
consumed (line 50). -/
structure StartResp where
  set_cookie : Option String

/-- Response to the GET of `final_url`: the body text and the tree
BeautifulSoup parses from it (line 61). -/
structure LocResp where
  text : String
  dom : HtmlNode

/-- Response to the form POST: only its body text is consumed. -/
structure PostResp where
  text : String

/-- Oracle for one check: what the site answers (or which exception is
raised) at each of the three requests the navigation can issue. -/
structure World where
  start : Except Fault StartResp
  location : Except Fault LocResp
  post : Except Fault PostResp

/-- The three HTTP requests a single check can issue, in order. -/
inductive ReqStep where
  | getStart
  | getLocation
  | postForm
deriving DecidableEq, Repr

/-- The submit input the code looks for first: `soup.find('input',
{'type': 'submit', 'value': 'Weiter', 'id': 'WeiterButton'})` (line 74). -/
def isWeiterWithId (n : HtmlNode) : Bool :=
  n.tagIs "input" && n.attr "type" == some "submit" &&
    n.attr "value" == some "Weiter" && n.attr "id" == some "WeiterButton"

/-- The fallback label-only search of line 78: `soup.find('input',
{'type': 'submit', 'value': 'Weiter'})`. -/
def isWeiterLabel (n : HtmlNode) : Bool :=
  n.tagIs "input" && n.attr "type" == some "submit" && n.attr "value" == some "Weiter"

/-- Lines 74-78: find the Weiter button, preferring the id-qualified
match, falling back to the label-only match; the result carries the
ancestor chain for `find_parent`. -/
def findWeiter (root : HtmlNode) : Option (HtmlNode × List HtmlNode) :=
  match findPathAux isWeiterWithId [] root with
  | some r => some r
  | none => findPathAux isWeiterLabel [] root

/-- `weiter_button.find_parent('form')` (line 83): the nearest enclosing
form element, given the ancestor chain innermost first. -/
def findParentForm (anc : List HtmlNode) : Option HtmlNode :=
  anc.find? (fun a => a.tagIs "form")

/-- `form.find_all('input')` (line 88): every input element of the form
subtree in document order. -/
def inputFields (form : HtmlNode) : List HtmlNode :=
  findAllAux (fun n => n.tagIs "input") form

/-- The loop body of lines 88-92. Line 91 guards with Python truthiness
(`if name:`): an input whose `name` attribute is absent or the empty
string is skipped; otherwise `name ↦ value` (default `''`) is stored
into the dict, overwriting an earlier entry of the same name. -/
def fieldStep (d : List (String × String)) (inp : HtmlNode) : List (String × String) :=
  match inp.attr "name" with
  | none => d
  | some nm => if nm == "" then d else dictInsert d nm (inp.attrD "value" "")

/-- The `name ↦ value` pair an input contributes, `none` for an input
whose name is absent or empty — exactly the inputs line 91's truthiness
check skips (used to specify `collect_form_data`). -/
def fieldEntry (i : HtmlNode) : Option (String × String) :=
  match i.attr "name" with
  | none => none
  | some nm => if nm == "" then none else some (nm, i.attrD "value" "")

/-- The entry rule the original claims C5/C10 described: one entry for
every input carrying a `name` attribute, an empty-string name included.
The code's line 91 (`if name:`) skips a falsy (empty) name, so this
deviates from `fieldEntry` exactly on empty-named inputs; it is kept to
state the counterexamples. -/
def claimedFieldEntry (i : HtmlNode) : Option (String × String) :=
  (i.attr "name").map (fun nm => (nm, i.attrD "value" ""))

/-- Lines 87-92: harvest `form_data` by folding the loop body over the
form's inputs in document order, starting from the empty dict. -/
def collect_form_data (form : HtmlNode) : List (String × String) :=
  (inputFields form).foldl fieldStep []

/-- The names of a list of inputs, in document order, nameless inputs
skipped. -/
def inputNames (l : List HtmlNode) : List String :=
  l.filterMap (fun i => i.attr "name")

/-- Lines 94-98: resolve the form action against the base URL, inserting
a separating slash when the action does not already start with one. -/
def resolve_form_url (base action : String) : String :=
  if pyStartsWith action "/" then base ++ action else base ++ "/" ++ action

/-- What one run of `check_appointments` produced: the returned
`(available, message)` pair, the requests issued in order, and — when the
POST was issued — its URL and form-encoded payload. -/
structure CheckOutcome where
  available : Bool
  message : String
  steps : List ReqStep
  posted : Option (String × List (String × String))

/-- The `try` body of `check_appointments` (lines 44-114): either the
`(bool, str)` pair it returns, or the exception that escapes to the
`except` clauses; paired with the trace of requests issued and the POST
payload when the POST happened. -/
def check_body (w : World) :
    Except Fault (Bool × String) × List ReqStep × Option (String × List (String × String)) :=
  match w.start with
  | .error f => (.error f, [.getStart], none)
  | .ok sresp =>
    match sresp.set_cookie with
    | none => (.ok (false, "⚠️ Session error - set-cookie was not found"), [.getStart], none)
    | some _cookie =>
      match w.location with
      | .error f => (.error f, [.getStart, .getLocation], none)
      | .ok loc =>
        if pyContains "fehler" (pyLower loc.text) || pyContains "error" (pyLower loc.text) then
          (.ok (false, loc.text), [.getStart, .getLocation], none)
        else if !pyContains "Ausländerbehörde Dresden 33.41" loc.text
            || !pyContains "Theaterstraße" loc.text then
          (.ok (false, "⚠️ Could not find expected location information"),
            [.getStart, .getLocation], none)
        else
          match findWeiter loc.dom with
          | none =>
            (.ok (false, "⚠️ Could not find \x27Weiter\x27 button on location page"),
              [.getStart, .getLocation], none)
          | some (_btn, anc) =>
            match findParentForm anc with
            | none =>
              (.ok (false, "⚠️ Could not find form for Weiter button"),
                [.getStart, .getLocation], none)
            | some form =>
              let form_data := collect_form_data form
              let form_url := resolve_form_url base_url (form.attrD "action" "")
              match w.post with
              | .error f =>
                (.error f, [.getStart, .getLocation, .postForm], some (form_url, form_data))
              | .ok presp =>
                if pyContains no_appointments_text presp.text then
                  (.ok (false, "❌ No appointments available"),
                    [.getStart, .getLocation, .postForm], some (form_url, form_data))
                else
                  (.ok (true, "✅ APPOINTMENTS AVAILABLE! Check immediately: " ++ base_url ++ "/suggest"),
                    [.getStart, .getLocation, .postForm], some (form_url, form_data))

/-- `check_appointments` (lines 39-119): the `try` body with its two
`except` clauses, which convert any escaping exception into a
`(False, descriptive message)` result — the operation is total. -/
def check_appointments (w : World) : CheckOutcome :=
  match check_body w with
  | (.ok (a, m), steps, posted) => ⟨a, m, steps, posted⟩
  | (.error f, steps, posted) => ⟨false, f.caughtMessage, steps, posted⟩

/-! ## The notifier (`DresdnAppointmentChecker.send_email`) -/

/-- Exceptions the `try` of `send_email` can catch (lines 123-140): the
claim distinguishes authentication, connection and timeout failures from
any other exception; all are subclasses of Python `Exception` and handled
by the single `except Exception` clause. The payload models `str(e)`. -/
inductive SmtpFault where
  | auth (msg : String)
  | connect (msg : String)
  | timeout (msg : String)
  | other (msg : String)

/-- `str(e)` for a notification failure. -/
def SmtpFault.msg : SmtpFault → String
  | .auth m => m
  | .connect m => m
  | .timeout m => m
  | .other m => m

/-- Oracle for one notification attempt: the outcome of each fallible
operation of the `try` body, in the order the body performs them. -/
structure SmtpWorld where
  build_msg : Except SmtpFault Unit
  connect : Except SmtpFault Unit
  starttls : Except SmtpFault Unit
  login : Except SmtpFault Unit
  send : Except SmtpFault Unit

/-- The `try` body of `send_email` (lines 124-137): build the MIME
message, open the SMTP connection, upgrade with STARTTLS, authenticate,
send; the first failing operation raises. -/
def send_email_body (w : SmtpWorld) : Except SmtpFault Unit := do
  w.build_msg
  w.connect
  w.starttls
  w.login
  w.send

/-- `send_email` (lines 121-140): returns `(success, logged line)`. The
`except Exception` clause converts any escaping exception into `False`
together with the printed diagnostic — the operation is total. -/
def send_email (subject : String) (w : SmtpWorld) : Bool × String :=
  match send_email_body w with
  | .ok _ => (true, "✉️ Email sent: " ++ subject)
  | .error e => (false, "❌ Failed to send email: " ++ e.msg)

/-! ## The state tracker (`run_once`, `run_continuously`) -/

/-- What one call of `run_once` did. `last_state` is the updated
`self.last_state` (Python `None` is `Option.none`); `email_attempted`
records whether `send_email` was called; `email_sent` its return value
when it was called. -/
structure RunOutcome where
  last_state : Option Bool
  email_attempted : Bool
  email_sent : Bool
  result : Bool

/-- `run_once` (lines 142-157) with the check result and the notifier
outcome abstracted: `st` is `self.last_state` before the call,
`available` the first component `check_appointments` returned, and
`email_ok` what `send_email` would return if called. The guard of line
150 is Python `available and self.last_state != available`, where
`self.last_state` ranges over `None`/`True`/`False`; line 156 stores
`available` unconditionally. -/
def run_once (st : Option Bool) (available : Bool) (email_ok : Bool) : RunOutcome :=
  let attempt := available && !(st == some available)
  { last_state := some available
    email_attempted := attempt
    email_sent := attempt && email_ok
    result := available }

/-- Fold `run_once` over a list of successive check results, counting
how many email notifications were attempted. (The count and the state
are independent of the notifier outcome, so it is fixed to `true`.) -/
def run_sequence (st : Option Bool) : List Bool → Option Bool × Nat
  | [] => (st, 0)
  | a :: rest =>
    let r := run_once st a true
    let (fs, n) := run_sequence r.last_state rest
    (fs, (if r.email_attempted then 1 else 0) + n)

/-- How one iteration of the `while True` loop of `run_continuously`
(lines 169-178) ends: `ok` = `run_once` and the inter-check sleep finish
normally; `interrupt` = `KeyboardInterrupt` is raised; `failure` = any
other exception escapes `run_once`. -/
inductive IterEvent where
  | ok
  | interrupt
  | failure (msg : String)
deriving DecidableEq

/-- The default of the `check_interval` parameter (line 159). -/
def default_check_interval : Nat := 300

/-- One pass of the loop body: the seconds slept before the next
iteration (`none` when the loop breaks) and whether the loop continues.
`ok` sleeps `check_interval` (line 172); `KeyboardInterrupt` breaks
(line 175); any other exception is logged and followed by the 60-second
recovery sleep (line 178). -/
def loop_step (check_interval : Nat) : IterEvent → Option Nat × Bool
  | .ok => (some check_interval, true)
  | .interrupt => (none, false)
  | .failure _ => (some 60, true)

/-- The `while True` loop run against a finite prefix of iteration
outcomes: `true` iff the loop exited within that prefix. -/
def run_loop (check_interval : Nat) : List IterEvent → Bool
  | [] => false
  | e :: rest => if (loop_step check_interval e).2 then run_loop check_interval rest else true

/-- `run_continuously` called without an explicit interval uses the
default `check_interval=300`. -/
def run_continuously (events : List IterEvent) : Bool :=
  run_loop default_check_interval events

/-! ## Concrete fixtures (used by the witness theorems) -/

/-- A location-page form holding a Weiter submit button, a hidden field
`a` with value `"1"` and a hidden field `b` with no value attribute. -/
def sampleForm : HtmlNode :=
  .elem "form" [("action", "suggest")]
    [ .elem "input" [("type", "hidden"), ("name", "a"), ("value", "1")] []
    , .elem "input" [("type", "hidden"), ("name", "b")] []
    , .elem "input" [("type", "submit"), ("value", "Weiter"), ("id", "WeiterButton")] [] ]

/-- The body element wrapping `sampleForm`. -/
def sampleBody : HtmlNode :=
  .elem "body" [] [sampleForm]

/-- A location page containing `sampleForm`. -/
def sampleDom : HtmlNode :=
  .elem "html" [] [sampleBody]

/-- The Weiter submit button of `sampleForm`. -/
def weiterBtn : HtmlNode :=
  .elem "input" [("type", "submit"), ("value", "Weiter"), ("id", "WeiterButton")] []

/-- The ancestor chain of `weiterBtn` inside `sampleDom`, innermost
first. -/
def sampleAnc : List HtmlNode :=
  [sampleForm, sampleBody, sampleDom]

/-- A form with two inputs both named `dup` (value `"first"` then
`"second"`) besides the Weiter button. -/
def dupForm : HtmlNode :=
  .elem "form" [("action", "/suggest")]
    [ .elem "input" [("type", "hidden"), ("name", "dup"), ("value", "first")] []
    , .elem "input" [("type", "hidden"), ("name", "dup"), ("value", "second")] []
    , .elem "input" [("type", "submit"), ("value", "Weiter"), ("id", "WeiterButton")] [] ]

/-- A form whose inputs carry the pairwise-distinct names `""` and
`"a"`: the empty-named input is dropped by line 91's truthiness check. -/
def emptyNameForm : HtmlNode :=
  .elem "form" [("action", "suggest")]
    [ .elem "input" [("type", "hidden"), ("name", ""), ("value", "x")] []
    , .elem "input" [("type", "hidden"), ("name", "a"), ("value", "1")] [] ]

/-- A form with two inputs sharing the empty name. -/
def dupEmptyForm : HtmlNode :=
  .elem "form" [("action", "suggest")]
    [ .elem "input" [("type", "hidden"), ("name", ""), ("value", "x")] []
    , .elem "input" [("type", "hidden"), ("name", ""), ("value", "y")] [] ]

/-- A location page with no submit input labelled Weiter at all. -/
def noButtonDom : HtmlNode :=
  .elem "html" []
    [.elem "body" [] [.elem "form" [("action", "x")] [.elem "input" [("type", "text"), ("name", "q")] []]]]

/-- A location-page body holding both expected location markers and no
error indicator. -/
def sampleLocText : String :=
  "Ausländerbehörde Dresden 33.41, Theaterstraße 11"

/-- A world whose first GET raises a connection timeout. -/
def networkErrorWorld : World :=
  { start := .error (.network "connection timed out")
  , location := .ok ⟨sampleLocText, sampleDom⟩
  , post := .ok ⟨""⟩ }

/-- A world that navigates to the final page and finds the fully-booked
sentence there. -/
def bookedWorld : World :=
  { start := .ok ⟨some "sid=1"⟩
  , location := .ok ⟨sampleLocText, sampleDom⟩
  , post := .ok ⟨"Derzeit sind alle verfügbaren Termine ausgebucht. Bitte versuchen Sie es zu einem späteren Zeitpunkt!"⟩ }

/-- A world whose final page is malformed junk that lacks the
fully-booked sentence. -/
def openWorld : World :=
  { start := .ok ⟨some "sid=1"⟩
  , location := .ok ⟨sampleLocText, sampleDom⟩
  , post := .ok ⟨"<div>unexpected redesigned page</div>"⟩ }

/-- A world whose location page lacks any Weiter submit control. -/
def noButtonWorld : World :=
  { start := .ok ⟨some "sid=1"⟩
  , location := .ok ⟨sampleLocText, noButtonDom⟩
  , post := .ok ⟨""⟩ }

/-- A world navigating a page whose form has the duplicate-name inputs. -/
def dupWorld : World :=
  { start := .ok ⟨some "sid=1"⟩
  , location := .ok ⟨sampleLocText, .elem "html" [] [dupForm]⟩
  , post := .ok ⟨""⟩ }

/-- An SMTP world whose login step raises an authentication error. -/
def authFailWorld : SmtpWorld :=
  { build_msg := .ok ()
  , connect := .ok ()
  , starttls := .ok ()
  , login := .error (.auth "535 authentication failed")
  , send := .ok () }

/-! ## Theorems -/

/-- C1: `run_once` attempts an email notification if and only if the
current check yields Available and the remembered state from the
immediately preceding check was not Available (including the initial
`None`); in particular exactly one notification is attempted across the
state sequence Unknown, Available, Available, Available and exactly two
across Unknown, Available, NotAvailable, Available. -/
theorem run_once_notifies_iff_transition :
    (∀ (st : Option Bool) (a e : Bool),
        (run_once st a e).email_attempted = true ↔ a = true ∧ st ≠ some true) ∧
    (run_sequence none [true, true, true]).2 = 1 ∧
    (run_sequence none [true, false, true]).2 = 2 := by
  refine ⟨?_, by decide, by decide⟩
  decide

/-- C9: after every invocation of `run_once` the remembered state equals
the boolean result of that invocation's check, whatever the notifier
outcome; consequently after a transition into Available whose
notification failed, the next Available check attempts no email. -/
theorem run_once_state_follows_check :
    (∀ (st : Option Bool) (a e : Bool), (run_once st a e).last_state = some a) ∧
    (∀ (st : Option Bool) (e e' : Bool),
        (run_once (run_once st true e).last_state true e').email_attempted = false) := by
  constructor <;> decide

/-- C6: the submission URL is the base URL with the form action appended,
inserting a separating slash exactly when the action does not already
start with one; in particular `submit.php` against `https://example.org`
resolves to `https://example.org/submit.php` and `/x` resolves to
`https://example.org/x`. -/
theorem resolve_form_url_slash_insertion :
    (∀ base action : String, pyStartsWith action "/" = false →
        resolve_form_url base action = base ++ "/" ++ action) ∧
    (∀ base action : String, pyStartsWith action "/" = true →
        resolve_form_url base action = base ++ action) ∧
    resolve_form_url "https://example.org" "submit.php" = "https://example.org/submit.php" ∧
    resolve_form_url "https://example.org" "/x" = "https://example.org/x" := by
  refine ⟨?_, ?_, by rfl, by rfl⟩ <;> intro base action h <;> simp [resolve_form_url, h]

/-- Witness for C6 at the concrete inputs of the claim. -/
theorem resolve_form_url_slash_insertion_witness :
    resolve_form_url "https://example.org" "submit.php" = "https://example.org" ++ "/" ++ "submit.php" :=
  resolve_form_url_slash_insertion.1 "https://example.org" "submit.php" (by decide)

/-- C7: any exception escaping the `try` body of `send_email` (building
the message, connecting, STARTTLS, login or send) yields `False`
together with the printed diagnostic and nothing propagates past the
call boundary; success is returned exactly when every operation of the
body succeeded. -/
theorem send_email_catches_all_failures :
    (∀ (subject : String) (w : SmtpWorld) (f : SmtpFault),
        send_email_body w = .error f →
        send_email subject w = (false, "❌ Failed to send email: " ++ f.msg)) ∧
    (∀ (subject : String) (w : SmtpWorld),
        (send_email subject w).1 = true ↔ send_email_body w = .ok ()) := by
  constructor
  · intro subject w f h
    unfold send_email
    rw [h]
  · intro subject w
    unfold send_email
    cases h : send_email_body w with
    | ok u =>
      cases u
      simp
    | error f =>
      simp

/-- Witness for C7: a simulated SMTP authentication failure makes
`send_email` return `False` with the diagnostic, without escaping. -/
theorem send_email_catches_all_failures_witness :
    send_email "subject" authFailWorld = (false, "❌ Failed to send email: 535 authentication failed") :=
  send_email_catches_all_failures.1 "subject" authFailWorld
    (.auth "535 authentication failed") rfl

/-- C8: one loop iteration of `run_continuously` ending in an unexpected
exception is caught and followed by the 60-second recovery sleep with the
loop continuing; a normal iteration sleeps the configured interval and
continues; the loop exits within a finite prefix of iteration outcomes
precisely when that prefix holds a `KeyboardInterrupt`; and the default
interval is 300 seconds. -/
theorem run_continuously_loop_behaviour :
    (∀ (ci : Nat) (m : String), loop_step ci (.failure m) = (some 60, true)) ∧
    (∀ ci : Nat, loop_step ci .ok = (some ci, true)) ∧
    (∀ ci : Nat, loop_step ci .interrupt = (none, false)) ∧
    (∀ (ci : Nat) (evs : List IterEvent),
        run_loop ci evs = true ↔ IterEvent.interrupt ∈ evs) ∧
    (∀ evs : List IterEvent, run_continuously evs = run_loop 300 evs) := by
  refine ⟨fun ci m => rfl, fun ci => rfl, fun ci => rfl, ?_, fun evs => rfl⟩
  intro ci evs
  induction evs with
  | nil => simp [run_loop]
  | cons e rest ih => cases e <;> simp [run_loop, loop_step, ih]

/-! ## Helper lemmas about the dict model and the field harvest -/

/-- Inserting a key absent from the dict appends the pair at the end. -/
theorem dictInsert_append_of_not_key (d : List (String × String)) (k v : String)
    (h : ∀ p ∈ d, p.1 ≠ k) : dictInsert d k v = d ++ [(k, v)] := by
  induction d with
  | nil => rfl
  | cons p rest ih =>
    rcases p with ⟨k', v'⟩
    have hk : k' ≠ k := h (k', v') (List.mem_cons_self _ _)
    simp only [dictInsert, beq_iff_eq, hk, if_false, List.cons_append, List.cons.injEq, true_and]
    exact ih (fun q hq => h q (List.mem_cons_of_mem _ hq))

/-- Looking up after an insert: the inserted key now maps to the new
value, every other key is unaffected. -/
theorem dictGet_dictInsert (d : List (String × String)) (k v q : String) :
    dictGet (dictInsert d k v) q = if k == q then some v else dictGet d q := by
  induction d with
  | nil =>
    simp only [dictInsert, dictGet]
  | cons p rest ih =>
    rcases p with ⟨k', v'⟩
    by_cases hk : k' = k
    · subst hk
      simp only [dictInsert, beq_self_eq_true, if_true, dictGet]
      by_cases hq : k' = q <;> simp [hq]
    · simp only [dictInsert, beq_iff_eq, hk, if_false, dictGet]
      by_cases hq : k' = q
      · subst hq
        have : ¬(k = k') := fun hh => hk hh.symm
        simp [beq_iff_eq, this]
      · simp only [beq_iff_eq, hq, if_false, ih]

/-- The keys after an insert: unchanged when the key was present,
extended by the key otherwise. -/
theorem dictInsert_keys (d : List (String × String)) (k v : String) :
    (dictInsert d k v).map Prod.fst =
      if k ∈ d.map Prod.fst then d.map Prod.fst else d.map Prod.fst ++ [k] := by
  induction d with
  | nil => simp [dictInsert]
  | cons p rest ih =>
    rcases p with ⟨k', v'⟩
    by_cases hk : k' = k
    · subst hk
      simp [dictInsert]
    · simp only [dictInsert, beq_iff_eq, hk, if_false, List.map_cons, List.mem_cons, ih]
      have : ¬(k = k') := fun hh => hk hh.symm
      by_cases hmem : k ∈ rest.map Prod.fst <;> simp [this, hmem]

/-- Inserting preserves distinctness of the keys. -/
theorem dictInsert_keys_nodup (d : List (String × String)) (k v : String)
    (h : (d.map Prod.fst).Nodup) : ((dictInsert d k v).map Prod.fst).Nodup := by
  rw [dictInsert_keys]
  split
  · exact h
  · next hnot => simp [List.nodup_append, h, hnot]

/-- A successful lookup key is one of the dict's keys. -/
theorem dictGet_mem_keys (d : List (String × String)) (k v : String)
    (h : dictGet d k = some v) : k ∈ d.map Prod.fst := by
  induction d with
  | nil => simp [dictGet] at h
  | cons p rest ih =>
    rcases p with ⟨k', v'⟩
    by_cases hk : k' = k
    · subst hk
      simp
    · simp only [dictGet, beq_iff_eq, hk, if_false] at h
      exact List.mem_cons_of_mem _ (ih h)

/-- A dict with distinct keys holds exactly one entry under a key it
contains. -/
theorem countP_keys_eq_one (d : List (String × String)) (k : String)
    (hnd : (d.map Prod.fst).Nodup) (hmem : k ∈ d.map Prod.fst) :
    d.countP (fun e => e.1 == k) = 1 := by
  induction d with
  | nil => simp at hmem
  | cons p rest ih =>
    rcases p with ⟨k', v'⟩
    simp only [List.map_cons, List.nodup_cons] at hnd
    rcases hnd with ⟨hnotin, hnd'⟩
    simp only [List.map_cons, List.mem_cons] at hmem
    rw [List.countP_cons]
    by_cases h : k' = k
    · subst h
      have hz : rest.countP (fun e => e.1 == k') = 0 := by
        rw [List.countP_eq_zero]
        intro a ha
        simp only [beq_iff_eq]
        intro hh
        exact hnotin (hh ▸ List.mem_map_of_mem Prod.fst ha)
      simp [hz]
    · rcases hmem with h1 | h2
      · exact absurd h1.symm h
      · have : ¬((k', v').1 = k) := h
        simp only [beq_iff_eq, this, if_false, Nat.add_zero]
        exact ih hnd' h2

/-- Folding the harvest step keeps the dict keys distinct. -/
theorem foldl_fieldStep_keys_nodup (l : List HtmlNode) (d : List (String × String))
    (h : (d.map Prod.fst).Nodup) : ((l.foldl fieldStep d).map Prod.fst).Nodup := by
  induction l generalizing d with
  | nil => exact h
  | cons i l ih =>
    rw [List.foldl_cons]
    apply ih
    cases hi : i.attr "name" with
    | none =>
      have hstep : fieldStep d i = d := by
        unfold fieldStep
        rw [hi]
      rw [hstep]
      exact h
    | some nm =>
      by_cases hnm0 : nm = ""
      · have hstep : fieldStep d i = d := by
          unfold fieldStep
          rw [hi]
          simp [hnm0]
        rw [hstep]
        exact h
      · have hstep : fieldStep d i = dictInsert d nm (i.attrD "value" "") := by
          unfold fieldStep
          rw [hi]
          simp [hnm0]
        rw [hstep]
        exact dictInsert_keys_nodup _ _ _ h

/-- With pairwise-distinct input names (none of which collides with a
key already in the dict), the harvest fold appends exactly one
`name ↦ value` pair per input with a nonempty name, in document
order. -/
theorem foldl_fieldStep_of_nodup (l : List HtmlNode) (d : List (String × String))
    (h1 : (inputNames l).Nodup)
    (h2 : ∀ p ∈ d, p.1 ∉ inputNames l) :
    l.foldl fieldStep d = d ++ l.filterMap fieldEntry := by
  induction l generalizing d with
  | nil => simp
  | cons i l ih =>
    rw [List.foldl_cons]
    cases hi : i.attr "name" with
    | none =>
      have hnames : inputNames (i :: l) = inputNames l := by
        simp [inputNames, List.filterMap_cons, hi]
      rw [hnames] at h1 h2
      have hstep : fieldStep d i = d := by
        unfold fieldStep
        rw [hi]
      have he : fieldEntry i = none := by
        unfold fieldEntry
        rw [hi]
      rw [hstep, List.filterMap_cons_none he]
      exact ih d h1 h2
    | some nm =>
      have hnames : inputNames (i :: l) = nm :: inputNames l := by
        simp [inputNames, List.filterMap_cons, hi]
      rw [hnames] at h1 h2
      rcases List.nodup_cons.mp h1 with ⟨hnm, h1'⟩
      by_cases hnm0 : nm = ""
      · have hstep : fieldStep d i = d := by
          unfold fieldStep
          rw [hi]
          simp [hnm0]
        have he : fieldEntry i = none := by
          unfold fieldEntry
          rw [hi]
          simp [hnm0]
        rw [hstep, List.filterMap_cons_none he]
        exact ih d h1' (fun p hp hq => h2 p hp (List.mem_cons_of_mem _ hq))
      have hstep : fieldStep d i = dictInsert d nm (i.attrD "value" "") := by
        unfold fieldStep
        rw [hi]
        simp [hnm0]
      have he : fieldEntry i = some (nm, i.attrD "value" "") := by
        unfold fieldEntry
        rw [hi]
        simp [hnm0]
      have hins : dictInsert d nm (i.attrD "value" "") = d ++ [(nm, i.attrD "value" "")] := by
        apply dictInsert_append_of_not_key
        intro p hp hq
        exact h2 p hp (hq ▸ List.mem_cons_self _ _)
      rw [hstep, hins, List.filterMap_cons_some he]
      rw [ih (d ++ [(nm, i.attrD "value" "")]) h1' ?_]
      · simp
      · intro p hp
        rcases List.mem_append.mp hp with hd | hsingle
        · exact fun hq => h2 p hd (List.mem_cons_of_mem _ hq)
        · simp only [List.mem_singleton] at hsingle
          subst hsingle
          exact hnm

/-- Looking up a name in the harvest fold yields the entry of the last
input of that name in document order; names never touched fall back to
the initial dict. -/
theorem foldl_fieldStep_dictGet (l : List HtmlNode) (d : List (String × String)) (k : String) :
    dictGet (l.foldl fieldStep d) k =
      match (l.filterMap fieldEntry).reverse.find? (fun e => e.1 == k) with
      | some e => some e.2
      | none => dictGet d k := by
  induction l generalizing d with
  | nil => simp
  | cons i l ih =>
    rw [List.foldl_cons, ih]
    cases hi : i.attr "name" with
    | none =>
      have he : fieldEntry i = none := by
        unfold fieldEntry
        rw [hi]
      have hstep : fieldStep d i = d := by
        unfold fieldStep
        rw [hi]
      rw [List.filterMap_cons_none he, hstep]
    | some nm =>
      by_cases hnm0 : nm = ""
      · have he : fieldEntry i = none := by
          unfold fieldEntry
          rw [hi]
          simp [hnm0]
        have hstep : fieldStep d i = d := by
          unfold fieldStep
          rw [hi]
          simp [hnm0]
        rw [List.filterMap_cons_none he, hstep]
      have he : fieldEntry i = some (nm, i.attrD "value" "") := by
        unfold fieldEntry
        rw [hi]
        simp [hnm0]
      have hstep : fieldStep d i = dictInsert d nm (i.attrD "value" "") := by
        unfold fieldStep
        rw [hi]
        simp [hnm0]
      rw [List.filterMap_cons_some he, hstep, List.reverse_cons, List.find?_append]
      cases hfind : (l.filterMap fieldEntry).reverse.find? (fun e => e.1 == k) with
      | some e => simp [hfind]
      | none =>
        simp only [hfind, Option.none_orElse, List.find?_singleton]
        by_cases hk : nm = k
        · subst hk
          simp [dictGet_dictInsert]
        · have : ¬((nm, i.attrD "value" "").1 == k) = true := by
            simp [beq_iff_eq, hk]
          simp only [this, if_false]
          rw [dictGet_dictInsert]
          simp [beq_iff_eq, hk]

/-- The first harvested entry matching a nonempty name comes from the
first input carrying that name (an empty name is never harvested, hence
the hypothesis). -/
theorem find?_filterMap_fieldEntry (l : List HtmlNode) (nm : String) (hne : nm ≠ "") :
    (l.filterMap fieldEntry).find? (fun e => e.1 == nm) =
      (l.find? (fun j => j.attr "name" == some nm)).map (fun j => (nm, j.attrD "value" "")) := by
  induction l with
  | nil => simp
  | cons i l ih =>
    cases hi : i.attr "name" with
    | none =>
      have he : fieldEntry i = none := by
        unfold fieldEntry
        rw [hi]
      have hp : ¬(i.attr "name" == some nm) = true := by simp [hi]
      have hrw : List.find? (fun j => j.attr "name" == some nm) (i :: l)
          = List.find? (fun j => j.attr "name" == some nm) l :=
        List.find?_cons_of_neg _ hp
      rw [List.filterMap_cons_none he, hrw, ih]
    | some k =>
      by_cases hk : k = nm
      · subst hk
        have he : fieldEntry i = some (k, i.attrD "value" "") := by
          unfold fieldEntry
          rw [hi]
          simp [hne]
        rw [List.filterMap_cons_some he]
        have hp1 : List.find? (fun e => e.1 == k) ((k, i.attrD "value" "") :: List.filterMap fieldEntry l)
            = some (k, i.attrD "value" "") :=
          List.find?_cons_of_pos _ (by simp)
        have hp2 : List.find? (fun j => j.attr "name" == some k) (i :: l) = some i :=
          List.find?_cons_of_pos _ (by simp [hi])
        rw [hp1, hp2]
        simp
      · have hp2 : List.find? (fun j => j.attr "name" == some nm) (i :: l)
            = List.find? (fun j => j.attr "name" == some nm) l :=
          List.find?_cons_of_neg _ (by simp [hi, hk])
        by_cases hk0 : k = ""
        · have he : fieldEntry i = none := by
            unfold fieldEntry
            rw [hi]
            simp [hk0]
          rw [List.filterMap_cons_none he, hp2, ih]
        · have he : fieldEntry i = some (k, i.attrD "value" "") := by
            unfold fieldEntry
            rw [hi]
            simp [hk0]
          rw [List.filterMap_cons_some he]
          have hp1 : List.find? (fun e => e.1 == nm) ((k, i.attrD "value" "") :: List.filterMap fieldEntry l)
              = List.find? (fun e => e.1 == nm) (List.filterMap fieldEntry l) :=
            List.find?_cons_of_neg _ (by simp [hk])
          rw [hp1, hp2, ih]

/-- C2: every exception a navigation step raises is caught inside
`check_appointments` and converted to the `(False, descriptive message)`
result of the matching `except` clause, so the operation always returns
a result pair; and no request step is ever issued twice within a single
check. -/
theorem checkAvailability_catches_and_never_retries :
    (∀ w : World, (check_appointments w).steps.Nodup) ∧
    (∀ (w : World) (f : Fault), (check_body w).1 = .error f →
        (check_appointments w).available = false ∧
        (check_appointments w).message = f.caughtMessage) := by
  constructor
  · intro w
    have hsteps : (check_appointments w).steps = (check_body w).2.1 := by
      unfold check_appointments
      rcases h : check_body w with ⟨r, steps, posted⟩
      rcases r with ⟨a, m⟩ | f <;> simp
    rw [hsteps]
    rcases w with ⟨s, l, p⟩
    rcases s with f | ⟨_ | c⟩ <;> rcases l with f' | loc <;> rcases p with f'' | pr <;>
      simp only [check_body] <;> (repeat' split) <;> (try dsimp only) <;> decide
  · intro w f h
    unfold check_appointments
    rcases hcb : check_body w with ⟨r, steps, posted⟩
    rw [hcb] at h
    simp only at h
    subst h
    exact ⟨rfl, rfl⟩

/-- Witness for C2: a connection timeout at the first GET yields the
caught network-error result. -/
theorem checkAvailability_catches_witness :
    (check_appointments networkErrorWorld).available = false ∧
    (check_appointments networkErrorWorld).message = "⚠️ Network error: connection timed out" :=
  checkAvailability_catches_and_never_retries.2 networkErrorWorld
    (.network "connection timed out") rfl

/-- C3: when the navigation reaches the final page, the result is
Unavailable exactly when the body holds the fixed German fully-booked
sentence, and Available for every body lacking it, however malformed. -/
theorem checkAvailability_final_page_classification
    (w : World) (sc : String) (loc : LocResp) (btn form : HtmlNode)
    (anc : List HtmlNode) (pr : PostResp)
    (hs : w.start = .ok ⟨some sc⟩)
    (hl : w.location = .ok loc)
    (he : (pyContains "fehler" (pyLower loc.text) || pyContains "error" (pyLower loc.text)) = false)
    (hm1 : pyContains "Ausländerbehörde Dresden 33.41" loc.text = true)
    (hm2 : pyContains "Theaterstraße" loc.text = true)
    (hw : findWeiter loc.dom = some (btn, anc))
    (hf : findParentForm anc = some form)
    (hp : w.post = .ok pr) :
    (check_appointments w).available = !pyContains no_appointments_text pr.text ∧
    (pyContains no_appointments_text pr.text = true →
        (check_appointments w).message = "❌ No appointments available") ∧
    (pyContains no_appointments_text pr.text = false →
        (check_appointments w).message =
          "✅ APPOINTMENTS AVAILABLE! Check immediately: " ++ base_url ++ "/suggest") := by
  simp only [check_appointments, check_body, hs, hl, he, hm1, hm2, hw, hf, hp]
  cases hc : pyContains no_appointments_text pr.text <;> simp [hc]

/-- Witness for C3: the booked fixture is classified Unavailable with the
fixed message; the malformed fixture lacking the sentence is classified
Available. -/
theorem checkAvailability_final_page_classification_witness :
    (check_appointments bookedWorld).available = false ∧
    (check_appointments bookedWorld).message = "❌ No appointments available" ∧
    (check_appointments openWorld).available = true := by
  have hb := checkAvailability_final_page_classification bookedWorld "sid=1"
    ⟨sampleLocText, sampleDom⟩ weiterBtn sampleForm sampleAnc
    ⟨"Derzeit sind alle verfügbaren Termine ausgebucht. Bitte versuchen Sie es zu einem späteren Zeitpunkt!"⟩
    rfl rfl (by decide) (by decide) (by decide) rfl rfl rfl
  have ho := checkAvailability_final_page_classification openWorld "sid=1"
    ⟨sampleLocText, sampleDom⟩ weiterBtn sampleForm sampleAnc
    ⟨"<div>unexpected redesigned page</div>"⟩
    rfl rfl (by decide) (by decide) (by decide) rfl rfl rfl
  exact ⟨hb.1, hb.2.1 (by decide), ho.1⟩

/-- C4: when the location page holds no submit input labelled Weiter
(neither the id-qualified nor the label-only search finds one), the
check returns the error result and never issues the form POST. -/
theorem checkAvailability_missing_weiter
    (w : World) (sc : String) (loc : LocResp)
    (hs : w.start = .ok ⟨some sc⟩)
    (hl : w.location = .ok loc)
    (he : (pyContains "fehler" (pyLower loc.text) || pyContains "error" (pyLower loc.text)) = false)
    (hm1 : pyContains "Ausländerbehörde Dresden 33.41" loc.text = true)
    (hm2 : pyContains "Theaterstraße" loc.text = true)
    (hw : findWeiter loc.dom = none) :
    (check_appointments w).available = false ∧
    (check_appointments w).message = "⚠️ Could not find \x27Weiter\x27 button on location page" ∧
    ReqStep.postForm ∉ (check_appointments w).steps ∧
    (check_appointments w).posted = none := by
  simp only [check_appointments, check_body, hs, hl, he, hm1, hm2, hw]
  simp

/-- Witness for C4 on the fixture page lacking any Weiter control. -/
theorem checkAvailability_missing_weiter_witness :
    (check_appointments noButtonWorld).available = false ∧
    (check_appointments noButtonWorld).message = "⚠️ Could not find \x27Weiter\x27 button on location page" ∧
    ReqStep.postForm ∉ (check_appointments noButtonWorld).steps ∧
    (check_appointments noButtonWorld).posted = none :=
  checkAvailability_missing_weiter noButtonWorld "sid=1" ⟨sampleLocText, noButtonDom⟩
    rfl rfl (by decide) (by decide) (by decide) rfl

/-- Counterexample to C5 as stated: the form whose inputs carry the
pairwise-distinct names `""` and `"a"` is harvested to `{a: 1}` only —
line 91's `if name:` drops the empty-named input, so the submitted map
does not hold one entry per input carrying a name attribute
(`claimedFieldEntry` spells out the claimed per-input entry). -/
theorem collect_form_data_distinct_names_counterexample :
    (inputNames (inputFields emptyNameForm)).Nodup ∧
    collect_form_data emptyNameForm ≠
      (inputFields emptyNameForm).filterMap claimedFieldEntry ∧
    collect_form_data emptyNameForm = [("a", "1")] := by
  refine ⟨by decide, by decide, by decide⟩

/-- C5 (amended): when the enclosing form's input names are pairwise
distinct, the harvested field map holds exactly one entry per input
with a nonempty name, in document order, mapping its name to its value
(empty string when the input has no value attribute); inputs without a
name attribute or with an empty name — which line 91's truthiness
check skips — contribute nothing; and the POST the check issues
carries exactly this map together with the resolved action URL. -/
theorem collect_form_data_distinct_names :
    (∀ form : HtmlNode,
        (inputNames (inputFields form)).Nodup →
        collect_form_data form = (inputFields form).filterMap fieldEntry) ∧
    (∀ (w : World) (sc : String) (loc : LocResp) (btn form : HtmlNode) (anc : List HtmlNode),
        w.start = .ok ⟨some sc⟩ →
        w.location = .ok loc →
        (pyContains "fehler" (pyLower loc.text) || pyContains "error" (pyLower loc.text)) = false →
        pyContains "Ausländerbehörde Dresden 33.41" loc.text = true →
        pyContains "Theaterstraße" loc.text = true →
        findWeiter loc.dom = some (btn, anc) →
        findParentForm anc = some form →
        (check_appointments w).posted =
          some (resolve_form_url base_url (form.attrD "action" ""), collect_form_data form)) := by
  constructor
  · intro form h
    unfold collect_form_data
    rw [foldl_fieldStep_of_nodup _ _ h (by simp)]
    simp
  · intro w sc loc btn form anc hs hl he hm1 hm2 hw hf
    cases hp : w.post with
    | error f =>
      simp only [check_appointments, check_body, hs, hl, he, hm1, hm2, hw, hf, hp]
      simp
    | ok pr =>
      simp only [check_appointments, check_body, hs, hl, he, hm1, hm2, hw, hf, hp]
      cases hc : pyContains no_appointments_text pr.text <;> simp [hc]

/-- Witness for C5: the form with fields a=1 and b (no value attribute)
is harvested to both entries with b empty, and the sample navigation
posts exactly this map to the resolved URL. -/
theorem collect_form_data_distinct_names_witness :
    collect_form_data sampleForm = [("a", "1"), ("b", "")] ∧
    (check_appointments bookedWorld).posted =
      some (resolve_form_url base_url (sampleForm.attrD "action" ""), collect_form_data sampleForm) := by
  constructor
  · rw [collect_form_data_distinct_names.1 sampleForm (by decide)]
    rfl
  · exact collect_form_data_distinct_names.2 bookedWorld "sid=1" ⟨sampleLocText, sampleDom⟩
      weiterBtn sampleForm sampleAnc rfl rfl (by decide) (by decide) (by decide) rfl rfl

/-- Counterexample to C10 as stated: two inputs share the name `""`,
yet the harvested map holds no entry at all under that name — line 91's
`if name:` skips both — rather than a single entry holding the last
value. -/
theorem collect_form_data_last_name_wins_counterexample :
    (inputFields dupEmptyForm).countP (fun j => j.attr "name" == some "") = 2 ∧
    (collect_form_data dupEmptyForm).countP (fun e => e.1 == "") = 0 ∧
    dictGet (collect_form_data dupEmptyForm) "" = none := by
  refine ⟨by decide, by decide, by decide⟩

/-- C10 (amended): when a form holds several inputs sharing the same
nonempty name, the harvested map holds exactly one entry under that
name, and its value is the value of the last such input in document
order (later inputs overwrite earlier ones); inputs sharing an empty
name are skipped by line 91's truthiness check and yield no entry. -/
theorem collect_form_data_last_name_wins (form : HtmlNode) (nm : String)
    (hne : nm ≠ "")
    (h : nm ∈ inputNames (inputFields form)) :
    ∃ i : HtmlNode,
      (inputFields form).reverse.find? (fun j => j.attr "name" == some nm) = some i ∧
      dictGet (collect_form_data form) nm = some (i.attrD "value" "") ∧
      (collect_form_data form).countP (fun e => e.1 == nm) = 1 := by
  have hex : ∃ j ∈ (inputFields form).reverse, (j.attr "name" == some nm) = true := by
    rcases List.mem_filterMap.mp (by simpa [inputNames] using h) with ⟨j, hj, hjn⟩
    exact ⟨j, List.mem_reverse.mpr hj, by simp [hjn]⟩
  have hsome : ((inputFields form).reverse.find? (fun j => j.attr "name" == some nm)).isSome :=
    List.find?_isSome.mpr hex
  rcases Option.isSome_iff_exists.mp hsome with ⟨i, hi⟩
  have hget : dictGet (collect_form_data form) nm = some (i.attrD "value" "") := by
    unfold collect_form_data
    rw [foldl_fieldStep_dictGet]
    have hfe : (List.filterMap fieldEntry (inputFields form)).reverse.find? (fun e => e.1 == nm)
        = some (nm, i.attrD "value" "") := by
      rw [← List.filterMap_reverse, find?_filterMap_fieldEntry _ _ hne, hi]
      rfl
    rw [hfe]
  refine ⟨i, hi, hget, ?_⟩
  have hnd : ((collect_form_data form).map Prod.fst).Nodup :=
    foldl_fieldStep_keys_nodup _ [] (by simp)
  exact countP_keys_eq_one _ _ hnd (dictGet_mem_keys _ _ _ hget)

/-- Witness for C10 on the form with two inputs named dup: the harvest
keeps a single entry whose value is the second (last) one. -/
theorem collect_form_data_last_name_wins_witness :
    dictGet (collect_form_data dupForm) "dup" = some "second" ∧
    (collect_form_data dupForm).countP (fun e => e.1 == "dup") = 1 := by
  obtain ⟨i, hfind, hget, hcount⟩ :=
    collect_form_data_last_name_wins dupForm "dup" (by decide) (by decide)
  have heval : (inputFields dupForm).reverse.find? (fun j => j.attr "name" == some "dup")
      = some (HtmlNode.elem "input" [("type", "hidden"), ("name", "dup"), ("value", "second")] []) := rfl
  rw [heval] at hfind
  obtain rfl := Option.some_inj.mp hfind
  exact ⟨hget, hcount⟩
